import Mathlib

/-!
Verification of the communitynotes data-loading and filtering pipeline
(static/sourcecode): the unified-helpfulness derivation, the duplicate
filters, the misleading-note rating filter, the minimum-count training
filter, the TSV reader's header-detection strategy, and the scoring
entry point.

The Python tables are embedded as Lean lists of records; every filter
returns a new list (tables are values).  Participant and note ids are
equality-compared opaque tokens in the source (str / int64) and are
embedded as `Nat`.  Fields that can be NaN in pandas are `Option`s, and
pandas' NaN comparison semantics (`NaN == x` is false, `NaN <= x` is
false) are reproduced by explicit `Option` matches.

`constants.py` is not part of the provided sources: its named values
(thresholds, the UI-launch timestamp, default paths) are therefore
universally quantified parameters of the embedded functions, and the
three categorical helpfulness values are modelled from the spec's
enumeration as an inductive type.
-/

namespace CommunityNotes

/-- The three categorical helpfulness levels of the V2 rating form.
Modelled from the spec: the TSV string constants live in the absent
`constants.py`; only equality with the three distinct values is used. -/
inductive HLevel where
  | notHelpfulLevel
  | somewhatHelpfulLevel
  | helpfulLevel
deriving DecidableEq, Repr

/-- The two note classifications recorded in note status history.
Modelled from the spec: the TSV string constants live in the absent
`constants.py`; only equality with the two distinct values is used. -/
inductive Classification where
  | misleading
  | notMisleading
deriving DecidableEq, Repr

/-- A rating row as read from the ratings TSV (the fields the filters
under verification touch).  `helpful`, `notHelpful` and
`helpfulnessLevel` are `Option`s because any of them can be NaN. -/
structure Rating where
  raterParticipantId : Nat
  noteId : Nat
  createdAtMillis : Int
  helpful : Option Nat
  notHelpful : Option Nat
  helpfulnessLevel : Option HLevel
deriving DecidableEq, Repr

/-- A note row (the fields `FilterDuplicateNotes` touches). -/
structure Note where
  noteId : Nat
  tweetId : Nat
  createdAtMillis : Int
deriving DecidableEq, Repr

/-- A note-status-history row after `merge_note_info`, restricted to the
three columns `FilterRatingsOfMisleadingNotes.filter` selects.  Both
`createdAtMillis` and `classification` can be NaN in the merged table. -/
structure NSHRow where
  noteId : Nat
  createdAtMillis : Option Int
  classification : Option Classification
deriving DecidableEq, Repr

/-- The unified helpfulness value of one rating row, following the five
sequential `.loc` assignments of `DataLoader._load_ratings`
(process_data.py lines 99-105): each assignment overwrites the value set
by the previous ones, so the *last* matching rule wins.  `none` is the
NaN left when no rule matches (the row is dropped afterwards). -/
def helpfulNum (r : Rating) : Option ℚ :=
  let v : Option ℚ := none
  let v := if r.helpful = some 1 then some 1 else v
  let v := if r.notHelpful = some 1 then some 0 else v
  let v := if r.helpfulnessLevel = some HLevel.notHelpfulLevel then some 0 else v
  let v := if r.helpfulnessLevel = some HLevel.somewhatHelpfulLevel then some (1/2) else v
  let v := if r.helpfulnessLevel = some HLevel.helpfulLevel then some 1 else v
  v

/-- All history rows for one noteId: the rows a pandas left merge on
`noteId` pairs a rating of that note with. -/
def nshJoin (nsh : List NSHRow) (nid : Nat) : List NSHRow :=
  nsh.filter (fun h => h.noteId == nid)

/-- The two columns `FilterRatingsOfMisleadingNotes.filter` takes from the
history side of the merge: `createdAtMillis_nsh` and `classification`.
Both are NaN (`none`) for an unmatched rating. -/
structure JoinedCols where
  createdAtMillisNSH : Option Int
  classification : Option Classification
deriving DecidableEq, Repr

/-- Left merge of rating-like rows with the selected history columns on
`noteId` (ratings_filters.py lines 58-63): a row with no history match
yields one output row with NaN join columns; otherwise one output row
per matching history row. -/
def leftJoinNSH {α : Type} (noteIdOf : α → Nat) (rows : List α)
    (nsh : List NSHRow) : List (α × JoinedCols) :=
  rows.flatMap (fun r =>
    match nshJoin nsh (noteIdOf r) with
    | [] => [(r, ⟨none, none⟩)]
    | hs => hs.map (fun h => (r, ⟨h.createdAtMillis, h.classification⟩)))

/-- `deletedNote`: the joined classification is NaN. -/
def deletedNote (j : JoinedCols) : Bool :=
  j.classification.isNone

/-- `notDeletedMisleading`: not deleted and classified "misleading". -/
def notDeletedMisleading (j : JoinedCols) : Bool :=
  (!deletedNote j) && (j.classification == some Classification.misleading)

/-- `deletedButInNSH`: deleted but the joined history `createdAtMillis`
is present (the note had been recorded before deletion). -/
def deletedButInNSH (j : JoinedCols) : Bool :=
  deletedNote j && j.createdAtMillisNSH.isSome

/-- `notDeletedNotMisleadingNewUI`: classified "not-misleading" with
history `createdAtMillis` strictly greater than the UI-launch timestamp.
A NaN `createdAtMillis` compares false, as in pandas. -/
def notDeletedNotMisleadingNewUI (launch : Int) (j : JoinedCols) : Bool :=
  (j.classification == some Classification.notMisleading) &&
    (match j.createdAtMillisNSH with
     | none => false
     | some t => launch < t)

/-- The retention mask of ratings_filters.py lines 105-107. -/
def keepJoined (launch : Int) (j : JoinedCols) : Bool :=
  notDeletedMisleading j || deletedButInNSH j || notDeletedNotMisleadingNewUI launch j

/-- `FilterRatingsOfMisleadingNotes.filter`: left-join the history
columns, keep the rows passing `keepJoined`, and drop the join-derived
columns again (the final `Prod.fst` projection).  Generic in the row
type so it applies both to raw ratings and to ratings carrying the
derived `helpfulNum` column. -/
def filterMisleadingRows {α : Type} (noteIdOf : α → Nat) (launch : Int)
    (rows : List α) (nsh : List NSHRow) : List α :=
  ((leftJoinNSH noteIdOf rows nsh).filter (fun p => keepJoined launch p.2)).map Prod.fst

/-- The classification the claim attributes to a note: that of its
(unique) history row, if any. -/
def claimClassification (nsh : List NSHRow) (nid : Nat) : Option Classification :=
  (nsh.find? (fun h => h.noteId == nid)).bind NSHRow.classification

/-- The history `createdAtMillis` the claim attributes to a note. -/
def claimCreatedAt (nsh : List NSHRow) (nid : Nat) : Option Int :=
  (nsh.find? (fun h => h.noteId == nid)).bind NSHRow.createdAtMillis

/-- The retention condition exactly as the claim states it: classified
"misleading", or absent classification with a present history
`createdAtMillis`, or "not-misleading" strictly after the UI launch. -/
def claimKeep (launch : Int) (nsh : List NSHRow) (nid : Nat) : Bool :=
  (claimClassification nsh nid == some Classification.misleading) ||
  ((claimClassification nsh nid).isNone && (claimCreatedAt nsh nid).isSome) ||
  ((claimClassification nsh nid == some Classification.notMisleading) &&
    (match claimCreatedAt nsh nid with
     | none => false
     | some t => launch < t))

/-- The joined columns a rating of note `nid` receives when the history
table is uniquely keyed. -/
def joinedOf (nsh : List NSHRow) (nid : Nat) : JoinedCols :=
  match nsh.find? (fun h => h.noteId == nid) with
  | none => ⟨none, none⟩
  | some h => ⟨h.createdAtMillis, h.classification⟩

/-- `DataFrame.drop_duplicates` keeping the first occurrence of each
full row, written with an accumulator of already-seen rows so that it
computes by structural recursion. -/
def pdDropDupsAux {α : Type} [DecidableEq α] (seen : List α) : List α → List α
  | [] => []
  | r :: rs =>
      if r ∈ seen then pdDropDupsAux seen rs
      else r :: pdDropDupsAux (r :: seen) rs

/-- Exact full-row duplicate removal, keeping first occurrences. -/
def pdDropDuplicates {α : Type} [DecidableEq α] (l : List α) : List α :=
  pdDropDupsAux [] l

/-- `len(np.unique(...))` / `len(groupby(key).head(1))`: the number of
distinct key values of a table. -/
def numUnique {α κ : Type} [DecidableEq κ] (key : α → κ) (l : List α) : Nat :=
  ((l.map key).dedup).length

/-- `FilterDuplicateNotes.filter`: drop exact full-row duplicates, then
raise `ValueError` unless the number of distinct noteIds equals the row
count (notes_filters.py lines 7-24). -/
def filterDuplicateNotes (notes : List Note) : Except String (List Note) :=
  let notes := pdDropDuplicates notes
  if notes.length = numUnique Note.noteId notes then Except.ok notes
  else Except.error "Found fewer unique noteIds than notes."

/-- The composite key asserted by `FilterDuplicateRatings`. -/
def ratingKey (r : Rating) : Nat × Nat :=
  (r.raterParticipantId, r.noteId)

/-- `FilterDuplicateRatings.filter`, generic in the row type (the
pipeline applies the same key assertion whether or not the derived
`helpfulNum` column is attached): drop exact full-row duplicates, then
raise `ValueError` unless the (raterParticipantId, noteId) pairs are
all distinct (ratings_filters.py lines 11-32). -/
def filterDuplicateRatingsBy {α κ : Type} [DecidableEq α] [DecidableEq κ]
    (key : α → κ) (ratings : List α) : Except String (List α) :=
  let ratings := pdDropDuplicates ratings
  if ratings.length = numUnique key ratings then Except.ok ratings
  else Except.error "Fewer unique raterId,noteId pairs than ratings."

/-- `FilterDuplicateRatings.filter` on plain rating rows. -/
def filterDuplicateRatings (ratings : List Rating) : Except String (List Rating) :=
  filterDuplicateRatingsBy ratingKey ratings

/-- A rating row with fixed filler fields, used by concrete witnesses. -/
def sampleRating (nid : Nat) : Rating :=
  { raterParticipantId := 0, noteId := nid, createdAtMillis := 0,
    helpful := some 1, notHelpful := none, helpfulnessLevel := none }

/-- Ratings on six notes covering every retention category. -/
def sampleRatingsC2 : List Rating :=
  [sampleRating 0, sampleRating 1, sampleRating 2,
   sampleRating 3, sampleRating 4, sampleRating 5]

/-- History rows: a misleading note, a deleted-but-recorded note, a
missing note (2), and not-misleading notes just before, exactly at, and
just after a launch threshold of 100. -/
def sampleNSH : List NSHRow :=
  [⟨0, some 50, some Classification.misleading⟩,
   ⟨1, some 50, none⟩,
   ⟨3, some 99, some Classification.notMisleading⟩,
   ⟨4, some 100, some Classification.notMisleading⟩,
   ⟨5, some 101, some Classification.notMisleading⟩]

/-- Attach the derived unified-helpfulness column and drop the rows
where it is NaN (`ratings.loc[~pd.isna(...)]`, process_data.py line
105). -/
def deriveHelpfulNum (ratings : List Rating) : List (Rating × ℚ) :=
  ratings.filterMap (fun r => (helpfulNum r).map (fun v => (r, v)))

/-- `DataLoader._load_ratings` after the TSV read (process_data.py lines
93-114): deduplicate, then derive the unified helpfulness and drop rows
without one, then optionally filter ratings of misleading notes.  A
`ValueError` raised by the duplicate filter aborts the load. -/
def loadRatings (launch : Int) (shouldFilter : Bool) (ratings : List Rating)
    (nsh : List NSHRow) : Except String (List (Rating × ℚ)) :=
  match filterDuplicateRatings ratings with
  | Except.error e => Except.error e
  | Except.ok deduped =>
      let withNum := deriveHelpfulNum deduped
      if shouldFilter then
        Except.ok (filterMisleadingRows (fun p => p.1.noteId) launch withNum nsh)
      else
        Except.ok withNum

/-- The loading order as the claim states it, for comparison with
`loadRatings`: rows without a unified helpfulness value are dropped
*before* the key-dependent duplicate filter runs. -/
def loadRatingsClaimOrder (launch : Int) (shouldFilter : Bool)
    (ratings : List Rating) (nsh : List NSHRow) :
    Except String (List (Rating × ℚ)) :=
  match filterDuplicateRatingsBy (fun p => ratingKey p.1) (deriveHelpfulNum ratings) with
  | Except.error e => Except.error e
  | Except.ok deduped =>
      if shouldFilter then
        Except.ok (filterMisleadingRows (fun p => p.1.noteId) launch deduped nsh)
      else
        Except.ok deduped

/-- Two ratings with the same composite key, different timestamps and no
helpfulness signal at all: the duplicate filter rejects them, although
the derivation would drop both. -/
def ratingsC3 : List Rating :=
  [{ raterParticipantId := 0, noteId := 0, createdAtMillis := 0,
     helpful := none, notHelpful := none, helpfulnessLevel := none },
   { raterParticipantId := 0, noteId := 0, createdAtMillis := 1,
     helpful := none, notHelpful := none, helpfulnessLevel := none }]

/-- `len(ratings.groupby(noteId).size())` restricted to one note: the
number of ratings of note `nid` in the table. -/
def countForNote (ratings : List Rating) (nid : Nat) : Nat :=
  ratings.countP (fun r => r.noteId == nid)

/-- The number of ratings by rater `rid` in the table. -/
def countForRater (ratings : List Rating) (rid : Nat) : Nat :=
  ratings.countP (fun r => r.raterParticipantId == rid)

/-- `_filter_ratings_on_notes_with_minimal_num_ratings`
(ratings_filters.py lines 155-180): keep the ratings of notes with at
least `minNote` ratings in the input table; the inner merge on the
grouped note list preserves the left row order. -/
def filterNotesWithMinRatings (minNote : Nat) (ratings : List Rating) : List Rating :=
  ratings.filter (fun r => decide (minNote ≤ countForNote ratings r.noteId))

/-- `_filter_ratings_from_raters_with_minimal_num_ratings`
(ratings_filters.py lines 182-206): keep the ratings of raters with at
least `minRater` ratings in the input table. -/
def filterRatersWithMinRatings (minRater : Nat) (ratings : List Rating) : List Rating :=
  ratings.filter (fun r => decide (minRater ≤ countForRater ratings r.raterParticipantId))

/-- `FilterRatingsForTraining.filter` (ratings_filters.py lines
120-153): note filter, rater filter, then the note filter once more —
deliberately not iterated to a fixed point. -/
def filterRatingsForTraining (minNote minRater : Nat) (ratings : List Rating) :
    List Rating :=
  filterNotesWithMinRatings minNote
    (filterRatersWithMinRatings minRater
      (filterNotesWithMinRatings minNote ratings))

/-- A training-filter rating row: only the two id columns matter. -/
def mkTR (rid nid : Nat) : Rating :=
  { raterParticipantId := rid, noteId := nid, createdAtMillis := 0,
    helpful := none, notHelpful := none, helpfulnessLevel := none }

/-- The asymmetry table, with `a` one less than the per-note minimum,
`b` one less than the per-rater minimum, and `c` at least both minima.
Note 0 carries a rating by rater 0 and one rating by each of the `a`
low-activity raters `i+2`; note 1 carries `b` ratings by rater 0 and
`c` ratings by rater 1.  The rater pass removes the low-activity raters,
the final note pass then removes note 0, and rater 0 is left in the
output with only `b` ratings — below the rater minimum. -/
def asymTable (a b c : Nat) : List Rating :=
  (mkTR 0 0 :: (List.range a).map (fun i => mkTR (i + 2) 0))
    ++ ((List.range b).map (fun _ => mkTR 0 1)
        ++ (List.range c).map (fun _ => mkTR 1 1))

/-- The scalar dtypes a reader schema can declare: `intCol` fails to
coerce non-numeric text (pandas int64), `strCol` accepts any text. -/
inductive CellType where
  | strCol
  | intCol
deriving DecidableEq, Repr

/-- A typed cell of a parsed table. -/
inductive CellValue where
  | vstr (s : String)
  | vint (n : Int)
deriving DecidableEq, Repr

/-- The numeric value of one decimal digit character. -/
def digitVal (ch : Char) : Option Nat :=
  if '0' ≤ ch ∧ ch ≤ '9' then some (ch.toNat - '0'.toNat) else none

/-- Accumulate decimal digits; any non-digit character fails. -/
def parseDigitsFrom : List Char → Nat → Option Nat
  | [], acc => some acc
  | ch :: rest, acc =>
      match digitVal ch with
      | none => none
      | some d => parseDigitsFrom rest (acc * 10 + d)

/-- Integer coercion of a text cell: an optional sign followed by at
least one digit; anything else fails (the cast `ValueError`). -/
def strToInt (s : String) : Option Int :=
  match s.data with
  | [] => none
  | '-' :: rest =>
      match rest with
      | [] => none
      | _ => (parseDigitsFrom rest 0).map (fun n => -(n : Int))
  | cs => (parseDigitsFrom cs 0).map (fun n => (n : Int))

/-- Coerce one TSV cell to a declared type; `none` is the `ValueError`
pandas raises on a failed cast. -/
def parseCell : CellType → String → Option CellValue
  | CellType.strCol, s => some (CellValue.vstr s)
  | CellType.intCol, s => (strToInt s).map CellValue.vint

/-- An in-memory parsed table: column names plus typed data rows. -/
structure Table where
  cols : List String
  rows : List (List CellValue)
deriving DecidableEq, Repr

/-- Parse one data row against positional column types; a row of the
wrong width or any failed coercion is a parse error. -/
def parseRowWith (tys : List CellType) (row : List String) :
    Option (List CellValue) :=
  if row.length = tys.length then
    (tys.zip row).mapM (fun p => parseCell p.1 p.2)
  else none

/-- First read attempt of `TSVReaderBase.read`: assume no header row,
apply the schema's names and declared types positionally. -/
def parseNoHeader (sch : List (String × CellType))
    (rows : List (List String)) : Option Table :=
  (rows.mapM (parseRowWith (sch.map Prod.snd))).map
    (fun data => ⟨sch.map Prod.fst, data⟩)

/-- The dtype pandas applies to a header-named column: the declared type
when the name is in the schema mapping, inferred (never-failing) text
otherwise. -/
def typeFor (sch : List (String × CellType)) (name : String) : CellType :=
  (sch.lookup name).getD CellType.strCol

/-- Second read attempt: row 1 is the header, dtypes are applied by
name, and `_verify_read_columns` then demands set equality of read and
declared column names, raising a `ValueError` naming the extra and
missing columns otherwise. -/
def parseWithHeader (sch : List (String × CellType))
    (rows : List (List String)) : Except String Table :=
  match rows with
  | [] => Except.error "empty file"
  | hdr :: rest =>
      match rest.mapM (parseRowWith (hdr.map (typeFor sch))) with
      | none => Except.error "parse error"
      | some data =>
          if (hdr.all (fun c => decide (c ∈ sch.map Prod.fst)))
              && ((sch.map Prod.fst).all (fun c => decide (c ∈ hdr))) then
            Except.ok ⟨hdr, data⟩
          else Except.error "Columns don't match: extra and missing columns."

/-- `TSVReaderBase.read` (tsv_readers/tsv_reader_base.py lines 14-37):
try the no-header parse first; on a coercion `ValueError`, re-parse
assuming a header row and verify the column set. -/
def readTSV (sch : List (String × CellType))
    (rows : List (List String)) : Except String Table :=
  match parseNoHeader sch rows with
  | some t => Except.ok t
  | none => parseWithHeader sch rows

/-- The five path defaults `get_args` falls back to.  Modelled from the
spec: the values live in the absent `constants.py`; only their identity
matters. -/
structure Defaults where
  enrollmentInputPath : String
  notesInputPath : String
  ratingsInputPath : String
  noteStatusHistoryInputPath : String
  scoredNotesOutputPath : String

/-- The parsed argument namespace of `get_args` (main.py lines 25-44):
five path options, each defaulting when not supplied. -/
structure Args where
  enrollment : String
  notes_path : String
  ratings_path : String
  note_status_history_path : String
  output_path : String

/-- `get_args`: resolve each option against its default. -/
def get_args (d : Defaults)
    (enrollment notes ratings nshPath outputPath : Option String) : Args :=
  { enrollment := enrollment.getD d.enrollmentInputPath,
    notes_path := notes.getD d.notesInputPath,
    ratings_path := ratings.getD d.ratingsInputPath,
    note_status_history_path := nshPath.getD d.noteStatusHistoryInputPath,
    output_path := outputPath.getD d.scoredNotesOutputPath }

/-- The observable file write of a pipeline run. -/
structure WriteAction where
  path : String
  sep : Char
  header : Bool
  index : Bool
deriving DecidableEq, Repr

/-- The write and final log of `run_scoring` (main.py lines 47-66): on
success `DataFrameTSVWriter(path=constants.scoredNotesOutputPath)`
writes one tab-separated file with a header row and no index column,
and "Finished." is logged.  The path handed to the writer is the
constant default, not `args.output_path`. -/
def run_scoring (d : Defaults) (_args : Args) : WriteAction × String :=
  (⟨d.scoredNotesOutputPath, '\t', true, false⟩, "Finished.")

end CommunityNotes

namespace CommunityNotes

theorem nshJoin_eq_find (nsh : List NSHRow) (nid : Nat)
    (hnodup : (nsh.map NSHRow.noteId).Nodup) :
    nshJoin nsh nid = (nsh.find? (fun h => h.noteId == nid)).toList := by
  induction nsh with
  | nil => rfl
  | cons h t ih =>
    simp only [List.map_cons, List.nodup_cons] at hnodup
    obtain ⟨hnotmem, hnodup'⟩ := hnodup
    by_cases hb : h.noteId = nid
    · have hfilter : t.filter (fun x => x.noteId == nid) = [] := by
        rw [List.filter_eq_nil_iff]
        intro x hx
        simp only [beq_iff_eq]
        intro heq
        exact hnotmem (hb ▸ heq ▸ List.mem_map_of_mem NSHRow.noteId hx)
      have hbeq : (h.noteId == nid) = true := by simpa using hb
      simp [nshJoin, List.filter_cons, hbeq, List.find?_cons, hfilter]
    · have hbeq : (h.noteId == nid) = false := by simpa using hb
      simp only [nshJoin, List.filter_cons, hbeq, List.find?_cons, cond_false]
      exact ih hnodup'

theorem leftJoinNSH_eq_map {α : Type} (noteIdOf : α → Nat) (rows : List α)
    (nsh : List NSHRow) (hnodup : (nsh.map NSHRow.noteId).Nodup) :
    leftJoinNSH noteIdOf rows nsh
      = rows.map (fun r => (r, joinedOf nsh (noteIdOf r))) := by
  induction rows with
  | nil => rfl
  | cons r rs ih =>
    simp only [leftJoinNSH, List.flatMap_cons, List.map_cons] at *
    rw [nshJoin_eq_find nsh (noteIdOf r) hnodup]
    cases hf : nsh.find? (fun h => h.noteId == noteIdOf r) with
    | none => simp [Option.toList, joinedOf, hf, ih]
    | some h => simp [Option.toList, joinedOf, hf, ih]

theorem keepJoined_eq_claim (launch : Int) (cam : Option Int)
    (cls : Option Classification) :
    keepJoined launch ⟨cam, cls⟩
      = ((cls == some Classification.misleading) ||
         (cls.isNone && cam.isSome) ||
         ((cls == some Classification.notMisleading) &&
           (match cam with
            | none => false
            | some t => launch < t))) := by
  rcases cls with _ | c
  · cases cam <;> rfl
  · cases c <;> cases cam <;> rfl

theorem filterMisleading_eq_filter {α : Type} (noteIdOf : α → Nat)
    (launch : Int) (rows : List α) (nsh : List NSHRow)
    (hnodup : (nsh.map NSHRow.noteId).Nodup) :
    filterMisleadingRows noteIdOf launch rows nsh
      = rows.filter (fun r => claimKeep launch nsh (noteIdOf r)) := by
  unfold filterMisleadingRows
  rw [leftJoinNSH_eq_map noteIdOf rows nsh hnodup, List.filter_map, List.map_map]
  have hmapid :
      (Prod.fst ∘ fun r => (r, joinedOf nsh (noteIdOf r))) = fun r : α => r := rfl
  rw [hmapid, List.map_id']
  apply List.filter_congr
  intro r _
  show keepJoined launch (joinedOf nsh (noteIdOf r)) = claimKeep launch nsh (noteIdOf r)
  unfold joinedOf claimKeep claimClassification claimCreatedAt
  cases hf : nsh.find? (fun h => h.noteId == noteIdOf r) with
  | none => simp [keepJoined_eq_claim]
  | some h => simp [keepJoined_eq_claim]

/-- C2: with a uniquely-keyed history table, the misleading-note filter
retains exactly the ratings whose note is classified "misleading", or
has no classification but a present history `createdAtMillis`, or is
classified "not-misleading" with history `createdAtMillis` strictly
greater than the UI-launch threshold; all other rows (not-misleading at
or before the threshold, deleted with no history timestamp) are
dropped. -/
theorem filterMisleadingNotes_retention (launch : Int) (ratings : List Rating)
    (nsh : List NSHRow) (hnodup : (nsh.map NSHRow.noteId).Nodup) :
    filterMisleadingRows Rating.noteId launch ratings nsh
      = ratings.filter (fun r => claimKeep launch nsh r.noteId) :=
  filterMisleading_eq_filter Rating.noteId launch ratings nsh hnodup

/-- Witness for C2 at the concrete boundary-exercising inputs. -/
theorem filterMisleadingNotes_retention_witness :
    (sampleNSH.map NSHRow.noteId).Nodup ∧
    filterMisleadingRows Rating.noteId 100 sampleRatingsC2 sampleNSH
      = sampleRatingsC2.filter (fun r => claimKeep 100 sampleNSH r.noteId) :=
  ⟨by decide, filterMisleadingNotes_retention 100 sampleRatingsC2 sampleNSH (by decide)⟩

/-- C9: with a uniquely-keyed history table the misleading-note filter
returns a sublist of the input ratings: every output row is an
unmodified input rating row, no row is duplicated by the left join, the
input order is preserved, and (structurally) all join-derived columns
are removed by the final projection, so the column set is unchanged. -/
theorem filterMisleadingNotes_frame (launch : Int) (ratings : List Rating)
    (nsh : List NSHRow) (hnodup : (nsh.map NSHRow.noteId).Nodup) :
    (filterMisleadingRows Rating.noteId launch ratings nsh).Sublist ratings := by
  rw [filterMisleading_eq_filter Rating.noteId launch ratings nsh hnodup]
  exact List.filter_sublist ratings

/-- Witness for C9 at concrete inputs. -/
theorem filterMisleadingNotes_frame_witness :
    (sampleNSH.map NSHRow.noteId).Nodup ∧
    (filterMisleadingRows Rating.noteId 100 sampleRatingsC2 sampleNSH).Sublist
      sampleRatingsC2 :=
  ⟨by decide, filterMisleadingNotes_frame 100 sampleRatingsC2 sampleNSH (by decide)⟩

/-- C1, counterexample: a rating with the legacy `helpful` flag set to 1
and categorical level "not-helpful" receives unified value 0, not 1: the
categorical assignment runs after (and overwrites) the binary one. -/
theorem helpfulNum_binary_does_not_win :
    helpfulNum
      { raterParticipantId := 0, noteId := 0, createdAtMillis := 0,
        helpful := some 1, notHelpful := none,
        helpfulnessLevel := some HLevel.notHelpfulLevel } = some 0
    ∧ (some (0 : ℚ) ≠ some (1 : ℚ)) := by
  constructor
  · rfl
  · decide

/-- C1, amended: the unified helpfulness value is decided by the *last*
matching assignment: a categorical `helpfulnessLevel` always wins
(not-helpful → 0, somewhat-helpful → 1/2, helpful → 1); otherwise
`notHelpful = 1` gives 0 (overriding `helpful = 1`); otherwise
`helpful = 1` gives 1; otherwise no value is assigned (row dropped). -/
theorem helpfulNum_last_assignment_wins (r : Rating) :
    helpfulNum r =
      match r.helpfulnessLevel with
      | some HLevel.notHelpfulLevel => some 0
      | some HLevel.somewhatHelpfulLevel => some (1/2)
      | some HLevel.helpfulLevel => some 1
      | none =>
          if r.notHelpful = some 1 then some 0
          else if r.helpful = some 1 then some 1
          else none := by
  unfold helpfulNum
  rcases h : r.helpfulnessLevel with _ | lvl
  · simp [h]
  · cases lvl <;> simp [h]

theorem nodup_of_numUnique_eq {α κ : Type} [DecidableEq κ] (key : α → κ)
    (l : List α) (h : l.length = numUnique key l) : (l.map key).Nodup := by
  have hsub := List.dedup_sublist (l.map key)
  have hlen : ((l.map key).dedup).length = (l.map key).length := by
    unfold numUnique at h
    simp [← h]
  have heq := hsub.eq_of_length hlen
  have hd := List.nodup_dedup (l.map key)
  rwa [heq] at hd

/-- C6: whenever either duplicate filter returns a table (rather than
raising `ValueError`), that table is exactly the full-row-deduplicated
input — nothing was silently dropped by key — and its primary/composite
key (noteId for notes, raterParticipantId-noteId for ratings) is fully
unique. -/
theorem duplicateFilters_key_unique_or_error (notes : List Note)
    (ratings : List Rating) (outN : List Note) (outR : List Rating)
    (hN : filterDuplicateNotes notes = Except.ok outN)
    (hR : filterDuplicateRatings ratings = Except.ok outR) :
    outN = pdDropDuplicates notes ∧ (outN.map Note.noteId).Nodup ∧
    outR = pdDropDuplicates ratings ∧ (outR.map ratingKey).Nodup := by
  unfold filterDuplicateNotes at hN
  unfold filterDuplicateRatings filterDuplicateRatingsBy at hR
  by_cases hcN :
      (pdDropDuplicates notes).length = numUnique Note.noteId (pdDropDuplicates notes)
  · by_cases hcR :
        (pdDropDuplicates ratings).length = numUnique ratingKey (pdDropDuplicates ratings)
    · simp only [hcN, hcR, if_pos, Except.ok.injEq] at hN hR
      subst hN
      subst hR
      exact ⟨rfl, nodup_of_numUnique_eq Note.noteId _ hcN, rfl,
        nodup_of_numUnique_eq ratingKey _ hcR⟩
    · simp [hcR] at hR
  · simp [hcN] at hN

/-- Witness for C6: a notes table and a ratings table each holding one
exact duplicate row, both accepted with the duplicate removed. -/
theorem duplicateFilters_key_unique_or_error_witness :
    filterDuplicateNotes
        [⟨0, 7, 1⟩, ⟨0, 7, 1⟩, ⟨1, 8, 2⟩]
        = Except.ok [⟨0, 7, 1⟩, ⟨1, 8, 2⟩] ∧
    filterDuplicateRatings [sampleRating 0, sampleRating 0, sampleRating 1]
        = Except.ok [sampleRating 0, sampleRating 1] ∧
    ([⟨0, 7, 1⟩, ⟨1, 8, 2⟩] : List Note)
        = pdDropDuplicates [⟨0, 7, 1⟩, ⟨0, 7, 1⟩, ⟨1, 8, 2⟩] ∧
    (([⟨0, 7, 1⟩, ⟨1, 8, 2⟩] : List Note).map Note.noteId).Nodup ∧
    [sampleRating 0, sampleRating 1]
        = pdDropDuplicates [sampleRating 0, sampleRating 0, sampleRating 1] ∧
    (([sampleRating 0, sampleRating 1]).map ratingKey).Nodup := by
  refine ⟨rfl, rfl, ?_⟩
  exact duplicateFilters_key_unique_or_error
    [⟨0, 7, 1⟩, ⟨0, 7, 1⟩, ⟨1, 8, 2⟩]
    [sampleRating 0, sampleRating 0, sampleRating 1]
    [⟨0, 7, 1⟩, ⟨1, 8, 2⟩] [sampleRating 0, sampleRating 1]
    rfl rfl

theorem filterMisleadingRows_subset {α : Type} (noteIdOf : α → Nat)
    (launch : Int) (rows : List α) (nsh : List NSHRow) :
    ∀ x ∈ filterMisleadingRows noteIdOf launch rows nsh, x ∈ rows := by
  intro x hx
  simp only [filterMisleadingRows, List.mem_map] at hx
  obtain ⟨p, hp, rfl⟩ := hx
  rw [List.mem_filter] at hp
  obtain ⟨hpj, _⟩ := hp
  simp only [leftJoinNSH, List.mem_flatMap] at hpj
  obtain ⟨r, hr, hpr⟩ := hpj
  cases hmatch : nshJoin nsh (noteIdOf r) with
  | nil =>
      rw [hmatch] at hpr
      simp only [List.mem_singleton] at hpr
      rw [hpr]
      exact hr
  | cons h0 hs =>
      rw [hmatch] at hpr
      simp only [List.mem_map] at hpr
      obtain ⟨h1, _, hph⟩ := hpr
      rw [← hph]
      exact hr

theorem mem_deriveHelpfulNum (ratings : List Rating) (p : Rating × ℚ)
    (hp : p ∈ deriveHelpfulNum ratings) : helpfulNum p.1 = some p.2 := by
  simp only [deriveHelpfulNum, List.mem_filterMap] at hp
  obtain ⟨r, _, hmap⟩ := hp
  cases hv : helpfulNum r with
  | none => rw [hv] at hmap; simp at hmap
  | some v =>
      rw [hv] at hmap
      have hpe : (r, v) = p := by simpa using hmap
      rw [← hpe]
      exact hv

/-- C3, counterexample: two ratings sharing the composite key, none of
whose helpfulness fields yields a unified value.  Under the code's
order, `FilterDuplicateRatings` runs first, sees both valueless rows and
raises; under the claimed order (derive and drop first) the load
succeeds with an empty table.  So the duplicate filter does run on rows
lacking a unified helpfulness value. -/
theorem loadRatings_dedup_sees_valueless_rows :
    (∀ r ∈ ratingsC3, helpfulNum r = none) ∧
    loadRatings 0 true ratingsC3 sampleNSH
      = Except.error "Fewer unique raterId,noteId pairs than ratings." ∧
    loadRatingsClaimOrder 0 true ratingsC3 sampleNSH = Except.ok [] := by
  refine ⟨by decide, rfl, rfl⟩

/-- C3, amended: the duplicate filter runs first, on all rows including
those lacking a unified helpfulness value; the derivation and the drop
of valueless rows happen after deduplication and before the
misleading-note filter, so every row of a successful load carries a
defined unified helpfulness value. -/
theorem loadRatings_output_has_helpfulNum (launch : Int) (b : Bool)
    (ratings : List Rating) (nsh : List NSHRow) (out : List (Rating × ℚ))
    (h : loadRatings launch b ratings nsh = Except.ok out) :
    ∀ p ∈ out, helpfulNum p.1 = some p.2 := by
  cases hdup : filterDuplicateRatings ratings with
  | error e =>
      unfold loadRatings at h
      rw [hdup] at h
      exact absurd h (by simp)
  | ok deduped =>
      have h' : (if b then
            Except.ok (filterMisleadingRows (fun p => p.1.noteId) launch
              (deriveHelpfulNum deduped) nsh)
          else Except.ok (deriveHelpfulNum deduped))
            = (Except.ok out : Except String (List (Rating × ℚ))) := by
        rw [← h]
        unfold loadRatings
        rw [hdup]
      intro p hp
      apply mem_deriveHelpfulNum deduped
      cases b with
      | true =>
          simp only [if_pos] at h'
          injection h' with h2
          rw [← h2] at hp
          exact filterMisleadingRows_subset _ launch _ nsh p hp
      | false =>
          simp only [Bool.false_eq_true, if_false, if_neg, not_false_eq_true] at h'
          injection h' with h2
          rw [← h2] at hp
          exact hp

/-- Witness for C3's amended theorem: a successful load whose single
output row carries its derived value. -/
theorem loadRatings_output_has_helpfulNum_witness :
    loadRatings 100 true [sampleRating 0] sampleNSH
      = Except.ok [(sampleRating 0, 1)] ∧
    ∀ p ∈ [(sampleRating 0, (1 : ℚ))], helpfulNum p.1 = some p.2 :=
  ⟨rfl, loadRatings_output_has_helpfulNum 100 true [sampleRating 0] sampleNSH
    [(sampleRating 0, 1)] rfl⟩

theorem countP_map_range_true (p : Rating → Bool) (f : Nat → Rating) (k : Nat)
    (h : ∀ i, i < k → p (f i) = true) :
    ((List.range k).map f).countP p = k := by
  rw [List.countP_map]
  have hall : ∀ i ∈ List.range k, (p ∘ f) i = true :=
    fun i hi => h i (List.mem_range.mp hi)
  rw [List.countP_eq_length.mpr hall, List.length_range]

theorem countP_map_range_false (p : Rating → Bool) (f : Nat → Rating) (k : Nat)
    (h : ∀ i, i < k → p (f i) = false) :
    ((List.range k).map f).countP p = 0 := by
  rw [List.countP_map]
  exact List.countP_eq_zero.mpr
    (fun i hi => by simp [Function.comp, h i (List.mem_range.mp hi)])

theorem countForNote_filterNotes (minNote : Nat) (ratings : List Rating)
    (nid : Nat) (h : minNote ≤ countForNote ratings nid) :
    countForNote (filterNotesWithMinRatings minNote ratings) nid
      = countForNote ratings nid := by
  unfold countForNote at h ⊢
  unfold filterNotesWithMinRatings countForNote
  rw [List.countP_filter]
  apply List.countP_congr
  intro r _
  by_cases hr : r.noteId = nid
  · subst hr
    simp [h]
  · simp [hr]

/-- C5: after the three-pass training filter, every note appearing in
the output has at least `minNote` ratings counted in the output table
itself: the final pass re-establishes note compliance (raters are given
no such guarantee). -/
theorem training_notes_compliant (minNote minRater : Nat)
    (ratings : List Rating) (r : Rating)
    (hr : r ∈ filterRatingsForTraining minNote minRater ratings) :
    minNote ≤ countForNote (filterRatingsForTraining minNote minRater ratings)
      r.noteId := by
  unfold filterRatingsForTraining at hr ⊢
  have hpred : minNote ≤ countForNote
      (filterRatersWithMinRatings minRater
        (filterNotesWithMinRatings minNote ratings)) r.noteId := by
    unfold filterNotesWithMinRatings at hr
    simpa using (List.mem_filter.mp hr).2
  rw [countForNote_filterNotes minNote _ r.noteId hpred]
  exact hpred

/-- Witness for C5 at a concrete input. -/
theorem training_notes_compliant_witness :
    sampleRating 0 ∈ filterRatingsForTraining 1 1 [sampleRating 0] ∧
    1 ≤ countForNote (filterRatingsForTraining 1 1 [sampleRating 0])
      (sampleRating 0).noteId :=
  ⟨by decide,
   training_notes_compliant 1 1 [sampleRating 0] (sampleRating 0) (by decide)⟩

theorem filterNotes_idem (minNote : Nat) (l : List Rating) :
    filterNotesWithMinRatings minNote (filterNotesWithMinRatings minNote l)
      = filterNotesWithMinRatings minNote l := by
  have hall : ∀ r ∈ filterNotesWithMinRatings minNote l,
      decide (minNote ≤ countForNote (filterNotesWithMinRatings minNote l)
        r.noteId) = true := by
    intro r hr
    have hpred : minNote ≤ countForNote l r.noteId := by
      unfold filterNotesWithMinRatings at hr
      simpa using (List.mem_filter.mp hr).2
    rw [countForNote_filterNotes minNote l r.noteId hpred]
    simpa using hpred
  calc filterNotesWithMinRatings minNote (filterNotesWithMinRatings minNote l)
      = (filterNotesWithMinRatings minNote l).filter
          (fun r => decide (minNote ≤ countForNote
            (filterNotesWithMinRatings minNote l) r.noteId)) := rfl
    _ = filterNotesWithMinRatings minNote l := List.filter_eq_self.mpr hall

/-- C10: the per-note minimum-ratings pass is idempotent — the counts a
kept note retains after one pass equal its input counts, so a second
application keeps everything — and therefore appending a fourth pass
after the three-pass training filter (which ends in a note pass) would
not change its output. -/
theorem filterNotes_pass_idempotent (minNote minRater : Nat)
    (ratings : List Rating) :
    filterNotesWithMinRatings minNote (filterNotesWithMinRatings minNote ratings)
      = filterNotesWithMinRatings minNote ratings ∧
    filterNotesWithMinRatings minNote
        (filterRatingsForTraining minNote minRater ratings)
      = filterRatingsForTraining minNote minRater ratings :=
  ⟨filterNotes_idem minNote ratings,
   filterNotes_idem minNote
     (filterRatersWithMinRatings minRater
       (filterNotesWithMinRatings minNote ratings))⟩

theorem asym_count_note0 (a b c : Nat) :
    countForNote (asymTable a b c) 0 = a + 1 := by
  unfold countForNote asymTable
  rw [List.countP_append, List.countP_cons, List.countP_append,
    countP_map_range_true _ _ a (fun i _ => rfl),
    countP_map_range_false _ _ b (fun i _ => rfl),
    countP_map_range_false _ _ c (fun i _ => rfl)]
  simp [mkTR]

theorem asym_count_note1 (a b c : Nat) :
    countForNote (asymTable a b c) 1 = b + c := by
  unfold countForNote asymTable
  rw [List.countP_append, List.countP_cons, List.countP_append,
    countP_map_range_false _ _ a (fun i _ => rfl),
    countP_map_range_true _ _ b (fun i _ => rfl),
    countP_map_range_true _ _ c (fun i _ => rfl)]
  simp [mkTR]

theorem asym_count_rater0 (a b c : Nat) :
    countForRater (asymTable a b c) 0 = 1 + b := by
  unfold countForRater asymTable
  rw [List.countP_append, List.countP_cons, List.countP_append,
    countP_map_range_false _ _ a (fun i _ => rfl),
    countP_map_range_true _ _ b (fun i _ => rfl),
    countP_map_range_false _ _ c (fun i _ => rfl)]
  simp [mkTR, Nat.add_comm]

theorem asym_count_rater1 (a b c : Nat) :
    countForRater (asymTable a b c) 1 = c := by
  unfold countForRater asymTable
  rw [List.countP_append, List.countP_cons, List.countP_append,
    countP_map_range_false _ _ a (fun i _ => rfl),
    countP_map_range_false _ _ b (fun i _ => rfl),
    countP_map_range_true _ _ c (fun i _ => rfl)]
  simp [mkTR]

theorem asym_count_raterB (a b c i : Nat) :
    countForRater (asymTable a b c) (i + 2) ≤ 1 := by
  unfold countForRater asymTable
  rw [List.countP_append, List.countP_cons, List.countP_append,
    countP_map_range_false _ _ b (fun j _ => rfl),
    countP_map_range_false _ _ c (fun j _ => rfl)]
  rw [List.countP_map]
  have hbound : (List.range a).countP (fun j => j == i) ≤ 1 := by
    have h := List.nodup_iff_count_le_one.mp (List.nodup_range a) i
    rw [List.count] at h
    exact h
  have hsame : (List.range a).countP
      ((fun r => r.raterParticipantId == i + 2) ∘ fun j => mkTR (j + 2) 0)
      = (List.range a).countP (fun j => j == i) := by
    apply List.countP_congr
    intro x _
    simp [Function.comp, mkTR]
  rw [hsame]
  simpa using hbound

theorem asymTable_filter (a b c : Nat) (p : Rating → Bool)
    (h0 : p (mkTR 0 0) = true)
    (hB : ∀ i, i < a → p (mkTR (i + 2) 0) = false)
    (hY : p (mkTR 0 1) = true)
    (hZ : p (mkTR 1 1) = true) :
    (asymTable a b c).filter p
      = mkTR 0 0 :: ((List.range b).map (fun _ => mkTR 0 1)
          ++ (List.range c).map (fun _ => mkTR 1 1)) := by
  unfold asymTable
  have h1 : ((List.range a).map (fun i => mkTR (i + 2) 0)).filter p = [] := by
    rw [List.filter_map]
    have hnil : (List.range a).filter (p ∘ fun i => mkTR (i + 2) 0) = [] := by
      rw [List.filter_eq_nil_iff]
      intro i hi
      simp [Function.comp, hB i (List.mem_range.mp hi)]
    rw [hnil]
    rfl
  have h2 : ((List.range b).map (fun _ => mkTR 0 1)).filter p
      = (List.range b).map (fun _ => mkTR 0 1) := by
    apply List.filter_eq_self.mpr
    intro x hx
    obtain ⟨i, _, rfl⟩ := List.mem_map.mp hx
    exact hY
  have h3 : ((List.range c).map (fun _ => mkTR 1 1)).filter p
      = (List.range c).map (fun _ => mkTR 1 1) := by
    apply List.filter_eq_self.mpr
    intro x hx
    obtain ⟨i, _, rfl⟩ := List.mem_map.mp hx
    exact hZ
  rw [List.filter_append, List.filter_cons, h0, List.filter_append, h1, h2, h3]
  simp

/-- C4: for every pair of thresholds that are at least 2, there is an
input ratings table on which the three-pass training filter leaves a
rater in the output with strictly fewer than `minRater` output ratings:
the rater is pushed under threshold only by the third (note re-filter)
pass and is not removed, so the asymmetry is preserved rather than
iterated to a fixed point. -/
theorem training_rater_asymmetry (minNote minRater : Nat)
    (hn : 2 ≤ minNote) (hm : 2 ≤ minRater) :
    ∃ ratings : List Rating,
      ∃ r ∈ filterRatingsForTraining minNote minRater ratings,
        countForRater (filterRatingsForTraining minNote minRater ratings)
          r.raterParticipantId < minRater := by
  obtain ⟨a, rfl⟩ : ∃ a, minNote = a + 2 := ⟨minNote - 2, by omega⟩
  obtain ⟨b, rfl⟩ : ∃ b, minRater = b + 2 := ⟨minRater - 2, by omega⟩
  refine ⟨asymTable (a + 1) (b + 1) (a + b + 4), ?_⟩
  have hmem : ∀ r ∈ asymTable (a + 1) (b + 1) (a + b + 4),
      r.noteId = 0 ∨ r.noteId = 1 := by
    intro r hr
    unfold asymTable at hr
    simp only [List.mem_append, List.mem_cons, List.mem_map,
      List.mem_range] at hr
    rcases hr with (rfl | ⟨i, _, rfl⟩) | (⟨i, _, rfl⟩ | ⟨i, _, rfl⟩)
    · exact Or.inl rfl
    · exact Or.inl rfl
    · exact Or.inr rfl
    · exact Or.inr rfl
  have hP1 : filterNotesWithMinRatings (a + 2)
      (asymTable (a + 1) (b + 1) (a + b + 4))
      = asymTable (a + 1) (b + 1) (a + b + 4) := by
    apply List.filter_eq_self.mpr
    intro r hr
    rcases hmem r hr with h | h
    · rw [h, asym_count_note0]
      simp
    · rw [h, asym_count_note1]
      simp only [decide_eq_true_eq]
      omega
  have hP2 : filterRatersWithMinRatings (b + 2)
      (asymTable (a + 1) (b + 1) (a + b + 4))
      = mkTR 0 0 :: ((List.range (b + 1)).map (fun _ => mkTR 0 1)
          ++ (List.range (a + b + 4)).map (fun _ => mkTR 1 1)) := by
    apply asymTable_filter
    · rw [show (mkTR 0 0).raterParticipantId = 0 from rfl, asym_count_rater0]
      simp only [decide_eq_true_eq]
      omega
    · intro i _
      have hle := asym_count_raterB (a + 1) (b + 1) (a + b + 4) i
      rw [show (mkTR (i + 2) 0).raterParticipantId = i + 2 from rfl]
      simp only [decide_eq_false_iff_not]
      omega
    · rw [show (mkTR 0 1).raterParticipantId = 0 from rfl, asym_count_rater0]
      simp only [decide_eq_true_eq]
      omega
    · rw [show (mkTR 1 1).raterParticipantId = 1 from rfl, asym_count_rater1]
      simp only [decide_eq_true_eq]
      omega
  have hcL0 : countForNote
      (mkTR 0 0 :: ((List.range (b + 1)).map (fun _ => mkTR 0 1)
        ++ (List.range (a + b + 4)).map (fun _ => mkTR 1 1))) 0 = 1 := by
    unfold countForNote
    rw [List.countP_cons, List.countP_append,
      countP_map_range_false _ _ (b + 1) (fun i _ => rfl),
      countP_map_range_false _ _ (a + b + 4) (fun i _ => rfl)]
    simp [mkTR]
  have hcL1 : countForNote
      (mkTR 0 0 :: ((List.range (b + 1)).map (fun _ => mkTR 0 1)
        ++ (List.range (a + b + 4)).map (fun _ => mkTR 1 1))) 1
      = (b + 1) + (a + b + 4) := by
    unfold countForNote
    rw [List.countP_cons, List.countP_append,
      countP_map_range_true _ _ (b + 1) (fun i _ => rfl),
      countP_map_range_true _ _ (a + b + 4) (fun i _ => rfl)]
    simp [mkTR]
  have hP3 : filterNotesWithMinRatings (a + 2)
      (mkTR 0 0 :: ((List.range (b + 1)).map (fun _ => mkTR 0 1)
        ++ (List.range (a + b + 4)).map (fun _ => mkTR 1 1)))
      = (List.range (b + 1)).map (fun _ => mkTR 0 1)
        ++ (List.range (a + b + 4)).map (fun _ => mkTR 1 1) := by
    unfold filterNotesWithMinRatings
    rw [List.filter_cons]
    rw [show (decide ((a + 2) ≤ countForNote
        (mkTR 0 0 :: ((List.range (b + 1)).map (fun _ => mkTR 0 1)
          ++ (List.range (a + b + 4)).map (fun _ => mkTR 1 1)))
        (mkTR 0 0).noteId)) = false from by
      rw [show (mkTR 0 0).noteId = 0 from rfl, hcL0]
      simp]
    simp only [Bool.false_eq_true, if_false]
    apply List.filter_eq_self.mpr
    intro r hr
    have hr1 : r.noteId = 1 := by
      simp only [List.mem_append, List.mem_map, List.mem_range] at hr
      rcases hr with ⟨i, _, rfl⟩ | ⟨i, _, rfl⟩ <;> rfl
    rw [List.mem_append] at hr
    rw [hr1, hcL1]
    simp only [decide_eq_true_eq]
    omega
  have hO : filterRatingsForTraining (a + 2) (b + 2)
      (asymTable (a + 1) (b + 1) (a + b + 4))
      = (List.range (b + 1)).map (fun _ => mkTR 0 1)
        ++ (List.range (a + b + 4)).map (fun _ => mkTR 1 1) := by
    unfold filterRatingsForTraining
    rw [hP1, hP2, hP3]
  refine ⟨mkTR 0 1, ?_, ?_⟩
  · rw [hO]
    apply List.mem_append_left
    exact List.mem_map.mpr ⟨0, List.mem_range.mpr (by omega), rfl⟩
  · rw [hO]
    rw [show (mkTR 0 1).raterParticipantId = 0 from rfl]
    unfold countForRater
    rw [List.countP_append,
      countP_map_range_true _ _ (b + 1) (fun i _ => rfl),
      countP_map_range_false _ _ (a + b + 4) (fun i _ => rfl)]
    omega

/-- Witness for C4 at thresholds 2 and 2. -/
theorem training_rater_asymmetry_witness :
    ((2 : Nat) ≤ 2 ∧ (2 : Nat) ≤ 2) ∧
    ∃ ratings : List Rating,
      ∃ r ∈ filterRatingsForTraining 2 2 ratings,
        countForRater (filterRatingsForTraining 2 2 ratings)
          r.raterParticipantId < 2 :=
  ⟨⟨by decide, by decide⟩,
   training_rater_asymmetry 2 2 (by decide) (by decide)⟩

/-- C7, counterexample: for an all-text schema the claim fails.  With
schema `[("a", strCol)]`, the headerless file `[["x"]]` parses to one
data row, but the headered file `[["a"], ["x"]]` also *succeeds* on the
first, no-header attempt (text coercion cannot fail), so its header
line "a" is read as a data row and the two parses differ. -/
theorem readTSV_header_detection_fails_for_text_schema :
    readTSV [("a", CellType.strCol)] [["x"]]
      = Except.ok ⟨["a"], [[CellValue.vstr "x"]]⟩ ∧
    readTSV [("a", CellType.strCol)] [["a"], ["x"]]
      = Except.ok ⟨["a"], [[CellValue.vstr "a"], [CellValue.vstr "x"]]⟩ ∧
    (Table.mk ["a"] [[CellValue.vstr "x"]]
      ≠ Table.mk ["a"] [[CellValue.vstr "a"], [CellValue.vstr "x"]]) :=
  ⟨rfl, rfl, by decide⟩

theorem map_typeFor_eq (sch : List (String × CellType))
    (hnodup : (sch.map Prod.fst).Nodup) :
    (sch.map Prod.fst).map (typeFor sch) = sch.map Prod.snd := by
  induction sch with
  | nil => rfl
  | cons p s ih =>
      obtain ⟨k, v⟩ := p
      simp only [List.map_cons, List.nodup_cons] at hnodup ⊢
      obtain ⟨hnm, hnd⟩ := hnodup
      have hhead : typeFor ((k, v) :: s) k = v := by
        simp [typeFor, List.lookup]
      have htail : (s.map Prod.fst).map (typeFor ((k, v) :: s))
          = (s.map Prod.fst).map (typeFor s) := by
        apply List.map_congr_left
        intro x hx
        have hne : (x == k) = false := by
          simp only [beq_eq_false_iff_ne, ne_eq]
          intro he
          exact hnm (he ▸ hx)
        simp [typeFor, List.lookup, hne]
      rw [hhead, htail, ih hnd]

theorem all_mem_self (l : List String) :
    l.all (fun c => decide (c ∈ l)) = true := by
  rw [List.all_eq_true]
  intro x hx
  simpa using hx

/-- C7, amended: the two-attempt strategy parses a headerless
schema-conforming file and its headered counterpart to identical
tables *provided* the schema's own header row fails the positional type
coercion (the condition that triggers the fallback — e.g. some non-text
column whose name is not numeric) and the schema's column names are
distinct; without that proviso the headered file's first attempt can
succeed and swallow the header as data. -/
theorem readTSV_header_detection (sch : List (String × CellType))
    (rows : List (List String)) (t : Table)
    (hnodup : (sch.map Prod.fst).Nodup)
    (hfail : parseRowWith (sch.map Prod.snd) (sch.map Prod.fst) = none)
    (hok : parseNoHeader sch rows = some t) :
    readTSV sch rows = Except.ok t ∧
    readTSV sch (sch.map Prod.fst :: rows) = Except.ok t := by
  obtain ⟨data, hdata, ht⟩ : ∃ data,
      rows.mapM (parseRowWith (sch.map Prod.snd)) = some data
        ∧ t = ⟨sch.map Prod.fst, data⟩ := by
    unfold parseNoHeader at hok
    cases hm : rows.mapM (parseRowWith (sch.map Prod.snd)) with
    | none => rw [hm] at hok; exact absurd hok (by simp)
    | some d =>
        rw [hm] at hok
        simp only [Option.map_some'] at hok
        exact ⟨d, rfl, (Option.some.injEq _ _ ▸ hok).symm⟩
  constructor
  · unfold readTSV
    rw [hok]
  · have hnofirst : parseNoHeader sch (sch.map Prod.fst :: rows) = none := by
      unfold parseNoHeader
      rw [List.mapM_cons, hfail]
      rfl
    have hred : readTSV sch (sch.map Prod.fst :: rows)
        = parseWithHeader sch (sch.map Prod.fst :: rows) := by
      unfold readTSV
      rw [hnofirst]
    rw [hred]
    simp only [parseWithHeader]
    rw [map_typeFor_eq sch hnodup, hdata]
    simp [all_mem_self, ht]

/-- Witness for C7's amended theorem: schema `[("n", intCol)]` whose
header row "n" fails integer coercion, on the one-row file `[["5"]]`. -/
theorem readTSV_header_detection_witness :
    ((([("n", CellType.intCol)].map Prod.fst) : List String).Nodup ∧
      parseRowWith ([("n", CellType.intCol)].map Prod.snd)
        ([("n", CellType.intCol)].map Prod.fst) = none ∧
      parseNoHeader [("n", CellType.intCol)] [["5"]]
        = some ⟨["n"], [[CellValue.vint 5]]⟩) ∧
    readTSV [("n", CellType.intCol)] [["5"]]
      = Except.ok ⟨["n"], [[CellValue.vint 5]]⟩ ∧
    readTSV [("n", CellType.intCol)] ([("n", CellType.intCol)].map Prod.fst :: [["5"]])
      = Except.ok ⟨["n"], [[CellValue.vint 5]]⟩ :=
  ⟨⟨by decide, by decide, by decide⟩,
   readTSV_header_detection [("n", CellType.intCol)] [["5"]]
     ⟨["n"], [[CellValue.vint 5]]⟩ (by decide) (by decide) (by decide)⟩

/-- C8: `run_scoring` does write one tab-delimited file with a header
row and no index column and log "Finished.", but the write goes to the
constant default output path, ignoring the parsed output-path option:
for every defaults record there is an option value the run fails to
honour (the claim is right about the surface and wrong about the path —
the code passes `constants.scoredNotesOutputPath` instead of
`args.output_path` to the writer). -/
theorem run_scoring_ignores_output_path (d : Defaults) :
    ∃ o : String, o ≠ d.scoredNotesOutputPath ∧
      (get_args d none none none none (some o)).output_path = o ∧
      (run_scoring d (get_args d none none none none (some o))).1.path
        = d.scoredNotesOutputPath ∧
      (run_scoring d (get_args d none none none none (some o))).1.sep = '\t' ∧
      (run_scoring d (get_args d none none none none (some o))).1.header = true ∧
      (run_scoring d (get_args d none none none none (some o))).1.index = false ∧
      (run_scoring d (get_args d none none none none (some o))).2 = "Finished." := by
  refine ⟨d.scoredNotesOutputPath ++ "x", ?_, rfl, rfl, rfl, rfl, rfl, rfl⟩
  intro he
  have hl := congrArg String.length he
  rw [String.length_append] at hl
  simp at hl
  exact absurd hl (by decide)

end CommunityNotes
